import Mathlib

/-!
Shallow embedding of the netbios-session protocol engine
(`src/unnamed/part_004`, primary implementation, and `src/session.js`).

Machine bytes are modelled as `Nat` values below 256; buffers are `List Nat`.
-/

namespace Netbios

/-- Source constant `var EXTENSION_LENGTH = 1 << 16;`. -/
def EXTENSION_LENGTH : Nat := 1 <<< 16

/-- Source constant `var MAX_TRAILER_LENGTH = (1 << 17) - 1;`. -/
def MAX_TRAILER_LENGTH : Nat := (1 <<< 17) - 1

/-- Source constant `var HEADER_LENGTH = 4;`. -/
def HEADER_LENGTH : Nat := 4

/-- Source constant `var FLAGS_E_MASK = 0x80;`. -/
def FLAGS_E_MASK : Nat := 0x80

/-- The six frame-type strings appearing in `TYPE_TO_STRING`/`TYPE_FROM_STRING`. -/
inductive FType where
  | message
  | request
  | positiveResponse
  | negativeResponse
  | retargetResponse
  | keepAlive
deriving DecidableEq, Repr

/-- The `TYPE_FROM_STRING` table: frame-type string to wire code. -/
def TYPE_FROM_STRING : FType → Nat
  | .message => 0x00
  | .request => 0x81
  | .positiveResponse => 0x82
  | .negativeResponse => 0x83
  | .retargetResponse => 0x84
  | .keepAlive => 0x85

/-- The `TYPE_TO_STRING` table: wire code to frame-type string; `none` models the
`undefined` result of looking up an unknown code. -/
def TYPE_TO_STRING : Nat → Option FType
  | 0x00 => some .message
  | 0x81 => some .request
  | 0x82 => some .positiveResponse
  | 0x83 => some .negativeResponse
  | 0x84 => some .retargetResponse
  | 0x85 => some .keepAlive
  | _ => none

/-- The three session modes that index `VALID_TYPES` (`ss.mode` may also be
`null`, modelled as `Option Mode` at the state level). -/
inductive Mode where
  | establishingIn
  | establishingOut
  | established
deriving DecidableEq, Repr

/-- The `VALID_TYPES` legality table. -/
def VALID_TYPES : Mode → FType → Bool
  | .establishingIn, .request => true
  | .establishingOut, .positiveResponse => true
  | .establishingOut, .negativeResponse => true
  | .established, .message => true
  | .established, .keepAlive => true
  | _, _ => false

/-- Embedding of `_packHeader(buf, offset, typeString, length)`: the four header bytes
written into `buf`.  `writeUInt16BE` stores the (in-range) 16-bit length
field big-endian. -/
def packHeaderBytes (ty : FType) (length : Nat) : List Nat :=
  let type := TYPE_FROM_STRING ty
  let flags := if length ≥ EXTENSION_LENGTH then FLAGS_E_MASK else 0
  let len := if length ≥ EXTENSION_LENGTH then length - EXTENSION_LENGTH else length
  [type, flags, len / 256 % 256, len % 256]

/-- The trailer-length computation of `_readHeader`:
`length = chunk.readUInt16BE(2)`, plus `EXTENSION_LENGTH` when
`flags & FLAGS_E_MASK` is set. -/
def decodeLength (flags hi lo : Nat) : Nat :=
  let length := hi * 256 + lo
  if flags &&& FLAGS_E_MASK ≠ 0 then length + EXTENSION_LENGTH else length

/-- The high-water mark configured on the input stream in `_initInputStream`:
`MAX_TRAILER_LENGTH + HEADER_LENGTH`. -/
def highWaterMark : Nat := MAX_TRAILER_LENGTH + HEADER_LENGTH

/-- Value of `ss.trailerType` after `_readHeader`: either a frame type legal for the
current mode, or the sentinel string `'ignore'`. -/
inductive TKind where
  | ignore
  | typ (t : FType)
deriving DecidableEq, Repr

/-- Which read function `ss.readFunc` is currently bound to. -/
inductive Phase where
  | header
  | trailer
deriving DecidableEq, Repr

/-- Observable effects of the session engine, in emission order:
`emit('message', chunk)`, `emit('connect')`, the `_handleRequest(chunk)`
dispatch into the (externally supplied) name codec and attach callback,
the connect callback resolving with no error, with the malformed-response
error, or with the response-code error, and `socket.end()` inside `end()`. -/
inductive Ev where
  | message (chunk : List Nat)
  | connect
  | requestFrame (chunk : List Nat)
  | connectCbOk
  | connectCbMalformed
  | connectCbRefused (errCode : Nat)
  | socketEnd
deriving DecidableEq, Repr

/-- The mutable session state of `NetbiosSessionState` plus the wrapped input
stream's buffered bytes and the trace of emitted effects.  `connectCallback`
and `socket` record presence of `ss.connectCallback` / `ss.socket`;
`crashed` records the uncaught `TypeError` thrown by
`VALID_TYPES[ss.mode][type]` when `ss.mode` is `null`. -/
@[ext]
structure Sess where
  mode : Option Mode
  paused : Bool
  connectCallback : Bool
  socket : Bool
  trailerType : Option TKind
  trailerLength : Nat
  phase : Phase
  input : List Nat
  events : List Ev
  crashed : Bool
deriving DecidableEq, Repr

/-- Embedding of `end()`: on an open socket, clear `mode`, clear `paused`, end the
socket and drop the reference. -/
def endSession (s : Sess) : Sess :=
  if s.socket then
    { s with mode := none, paused := false, socket := false,
             events := s.events ++ [.socketEnd] }
  else s

/-- Embedding of `_established()`: set `mode` to `'established'` and `emit('connect')`. -/
def established (s : Sess) : Sess :=
  { s with mode := some .established, events := s.events ++ [.connect] }

/-- Embedding of `_handlePositiveResponse()`. -/
def handlePositiveResponse (s : Sess) : Sess :=
  if s.mode ≠ some .establishingOut then s
  else
    let cb := s.connectCallback
    let s1 := established { s with connectCallback := false }
    if cb then { s1 with events := s1.events ++ [.connectCbOk] } else s1

/-- Embedding of `_handleNegativeResponse(chunk)`.  Callers (`_readTrailer`) only pass a
chunk of length `ss.trailerLength ≥ 1`, so `chunk.readUInt8(0)` is modelled
by `chunk.headD 0`. -/
def handleNegativeResponse (s : Sess) (chunk : List Nat) : Sess :=
  if s.mode ≠ some .establishingOut then s
  else
    let cb := s.connectCallback
    let s1 := { s with connectCallback := false }
    if chunk.length ≠ 1 ∧ cb then
      endSession { s1 with events := s1.events ++ [.connectCbMalformed] }
    else
      let errCode := chunk.headD 0
      let s2 := if cb then { s1 with events := s1.events ++ [.connectCbRefused errCode] }
                else s1
      endSession s2

/-- The type-validity computation of `_readHeader`:
`TYPE_TO_STRING[t]` filtered through `VALID_TYPES[ss.mode]`, falling back to
`'ignore'` for unknown or state-illegal types. -/
def headerKind (m : Mode) (t : Nat) : TKind :=
  match TYPE_TO_STRING t with
  | some ty => if VALID_TYPES m ty then .typ ty else .ignore
  | none => .ignore

/-- Embedding of `_readTrailer()`.  Returns the updated state and the completion flag.
`inputStream.read(n)` yields `null` (incomplete) while fewer than `n` bytes
are buffered. -/
def readTrailer (s : Sess) : Sess × Bool :=
  if s.input.length < s.trailerLength then (s, false)
  else
    let chunk := s.input.take s.trailerLength
    let s1 := { s with input := s.input.drop s.trailerLength,
                       phase := .header, trailerType := none, trailerLength := 0 }
    match s.trailerType with
    | some (.typ .request) =>
        ({ s1 with events := s1.events ++ [.requestFrame chunk] }, true)
    | some (.typ .message) =>
        ({ s1 with events := s1.events ++ [.message chunk] }, true)
    | some (.typ .negativeResponse) => (handleNegativeResponse s1 chunk, true)
    | _ => (s1, true)

/-- Embedding of `_readHeader()`.  Reads the 4 header bytes when buffered, computes the
trailer type and length, and either chains directly into `_readTrailer`
(length > 0) or completes the frame in place (length 0, handling a legal
positive response).  With `ss.mode === null` the `VALID_TYPES[ss.mode]`
lookup throws after the 4 header bytes were consumed (`crashed`). -/
def readHeader (s : Sess) : Sess × Bool :=
  match s.input with
  | t :: flags :: hi :: lo :: rest =>
    match s.mode with
    | none => ({ s with input := rest, crashed := true }, false)
    | some m =>
      let k := headerKind m t
      let length := decodeLength flags hi lo
      let s1 := { s with input := rest, trailerType := some k, trailerLength := length }
      if length > 0 then
        readTrailer { s1 with phase := .trailer }
      else
        let s2 := { s1 with trailerType := none, trailerLength := 0 }
        match k with
        | .typ .positiveResponse => (handlePositiveResponse s2, true)
        | _ => (s2, true)
  | _ => (s, false)

/-- Embedding of `ss.readFunc()`: dispatch on the currently bound read function. -/
def readFunc (s : Sess) : Sess × Bool :=
  match s.phase with
  | .header => readHeader s
  | .trailer => readTrailer s

/-- Continuation status of the `_doRead` loop: a `process.nextTick`
callback is scheduled, a `once('readable')` listener is armed, or neither. -/
inductive LoopCtl where
  | ticking
  | waiting
  | halted
deriving DecidableEq, Repr

/-- One scheduled `_doRead` tick: run `ss.readFunc()`, then stop when
established-and-paused, wait for readability when incomplete, and otherwise
reschedule. -/
def tick (s : Sess) : Sess × LoopCtl :=
  let r := readFunc s
  if r.1.mode = some .established ∧ r.1.paused then (r.1, .halted)
  else if !r.2 then (r.1, .waiting)
  else (r.1, .ticking)

/-- Run up to `fuel` scheduled ticks of the `_doRead` loop. -/
def runTicks : Nat → Sess × LoopCtl → Sess × LoopCtl
  | 0, sc => sc
  | fuel + 1, (s, c) =>
      match c with
      | .ticking => runTicks fuel (tick s)
      | _ => (s, c)

/-- Embedding of `pause()`: set `ss.paused`. -/
def pauseAct (sc : Sess × LoopCtl) : Sess × LoopCtl :=
  ({ sc.1 with paused := true }, sc.2)

/-- Embedding of `resume()`: when paused, clear the flag and schedule a `_doRead` tick. -/
def resumeAct (sc : Sess × LoopCtl) : Sess × LoopCtl :=
  if sc.1.paused then ({ sc.1 with paused := false }, .ticking) else sc

/-- The message chunks dispatched so far, in emission order. -/
def msgEvents (s : Sess) : List (List Nat) :=
  s.events.filterMap fun e =>
    match e with
    | .message c => some c
    | _ => none

/-- The wire encoding of a sequence of message frames, each one a
`_packHeader`-produced header followed by its trailer. -/
def encodeFrames (ts : List (List Nat)) : List Nat :=
  (ts.map fun t => packHeaderBytes .message t.length ++ t).flatten

/-- The number of messages dispatched so far. -/
def msgCount (s : Sess) : Nat := (msgEvents s).length

/-- C4 as stated: once `paused` is set while the session is established, no
further message event is ever dispatched by the read loop, regardless of
what is already buffered and of the loop's continuation status. -/
def c4Stated : Prop :=
  ∀ (s : Sess) (c : LoopCtl) (fuel : Nat),
    s.mode = some .established → s.paused = true →
    msgEvents ((runTicks fuel (s, c)).1) = msgEvents s

/-- C7 as stated: any negative-response frame received in `establishingOut`
whose trailer length is not exactly 1 makes the session fail the connect
callback with the malformed-response error and close the transport. -/
def c7Stated : Prop :=
  ∀ (fl hi lo : Nat) (body rest : List Nat) (s : Sess),
    s.mode = some .establishingOut → s.phase = .header → s.socket = true →
    s.connectCallback = true →
    body.length = decodeLength fl hi lo → decodeLength fl hi lo ≠ 1 →
    s.input = 0x83 :: fl :: hi :: lo :: (body ++ rest) →
    Ev.socketEnd ∈ ((readFunc s).1).events ∧
      Ev.connectCbMalformed ∈ ((readFunc s).1).events

/-- All entries of a buffer are bytes. -/
def bytesWF (l : List Nat) : Prop := ∀ b ∈ l, b ≤ 255

instance bytesWFDecidable (l : List Nat) : Decidable (bytesWF l) :=
  inferInstanceAs (Decidable (∀ b ∈ l, b ≤ 255))

/-- Events of the `_writeChunk` pipeline of `src/session.js`, in causal
order: a header write, a trailer write, and the invocation of the original
`_write()` completion callback.  `_writeFlow` serializes each write against
the transport's drain signal, so the emission order below is the order the
transport accepts the buffers. -/
inductive WEv where
  | hdr (bytes : List Nat)
  | dat (bytes : List Nat)
  | cb
deriving DecidableEq, Repr

/-- Embedding of `_writeChunk(chunk, offset, callback)` of `src/session.js`: latch the
message length to `MAX_TRAILER_LENGTH`, write a `message` header and the
`chunk.slice(offset, end)` trailer, then recurse on the rest of the chunk;
the completion callback runs only after the final trailer write. -/
def writeChunk (chunk : List Nat) (offset : Nat) : List WEv :=
  let msgLength := min (chunk.length - offset) MAX_TRAILER_LENGTH
  let header := packHeaderBytes .message msgLength
  let dat := (chunk.drop offset).take msgLength
  if offset + msgLength < chunk.length then
    .hdr header :: .dat dat :: writeChunk chunk (offset + msgLength)
  else
    [.hdr header, .dat dat, .cb]
termination_by chunk.length - offset
decreasing_by
  have hM : 0 < MAX_TRAILER_LENGTH := by decide
  omega

/-- The trailers written by a `_writeChunk` trace, in order. -/
def writeDats (evs : List WEv) : List (List Nat) :=
  evs.filterMap fun e =>
    match e with
    | .dat b => some b
    | _ => none

/-- Rendering of a trailer sequence as alternating header/trailer write
events, each header encoding its trailer's length. -/
def framesTrace (ts : List (List Nat)) : List WEv :=
  (ts.map fun t => [WEv.hdr (packHeaderBytes .message t.length), WEv.dat t]).flatten

/-- The constructor options consulted by `NetbiosSessionState`. -/
structure SessionOpts where
  direct : Bool := false
  autoAccept : Bool := false
  paused : Bool := false
deriving DecidableEq, Repr

/-- The fields of `NetbiosSessionState` relevant to the default accept
policy.  `acceptDefault` models the JS property of that name: it is read by
`_handleRequest` but never assigned anywhere in the source, so it is always
`undefined` (`none`). -/
structure SessionStateRec where
  mode : Option Mode
  direct : Bool
  autoAccept : Bool
  paused : Bool
  acceptDefault : Option Bool
deriving DecidableEq, Repr

/-- Embedding of `new NetbiosSessionState(session, opts)`. -/
def mkSessionState (opts : SessionOpts) : SessionStateRec :=
  { mode := none, direct := opts.direct, autoAccept := opts.autoAccept,
    paused := opts.paused, acceptDefault := none }

/-- JavaScript truthiness of an optional boolean property. -/
def truthy : Option Bool → Bool
  | none => false
  | some b => b

/-- Outcome of the no-callback branch of `_handleRequest`. -/
inductive Decision where
  | accept
  | reject
deriving DecidableEq, Repr

/-- The no-callback default policy of `_handleRequest`:
`if (!ss.acceptDefault) { _established(); _sendPositiveResponse(); }
else { _sendNegativeResponse(null); }`. -/
def noCallbackDecision (ss : SessionStateRec) : Decision :=
  if !truthy ss.acceptDefault then .accept else .reject

/-- The `ERROR_CODE_FROM_STRING` table. -/
def ERROR_CODE_FROM_STRING (s : String) : Option Nat :=
  if s = "Not listening on called name" then some 0x80
  else if s = "Not listening for calling name" then some 0x81
  else if s = "Called name not present" then some 0x82
  else if s = "Called name present, but insufficient resources" then some 0x83
  else if s = "Unspecified error" then some 0x8f
  else none

/-- Embedding of `_sendNegativeResponse(errorString)`: build the 5-byte frame (header with
trailer length 1, then the looked-up error code, falling back to the
`'Unspecified error'` code `0x8f`), write it, and `end()` immediately when
the write was flushed, otherwise on the socket's `'drain'` event.  Returns
the frame bytes and whether the close happened immediately. -/
def sendNegativeResponse (errorString : Option String) (flushed : Bool) :
    List Nat × Bool :=
  let buf := packHeaderBytes .negativeResponse 1
  let errorCode :=
    match errorString.bind ERROR_CODE_FROM_STRING with
    | some c => c
    | none => 0x8f
  (buf ++ [errorCode], flushed)

/-- Events of the `write()`/`_writeMsg()` path of the primary session
implementation: a socket write, a wait for the socket's drain signal, and
the scheduling of the user callback (with or without an error). -/
inductive W8Ev where
  | wbuf (bytes : List Nat)
  | drainWait
  | cbSched (isError : Bool)
deriving DecidableEq, Repr

/-- Result of a `write()` call: the value returned to the caller, whether an
`'error'` event was emitted, and the causal trace of writes, drain waits and
callback scheduling. -/
structure WriteResult where
  returned : Bool
  errorEmitted : Bool
  trace : List W8Ev
deriving DecidableEq, Repr

/-- Embedding of `_writeMsg(msg, callback)`: write the payload; when not flushed, wait
for drain before `_doDrain` schedules the callback; returns the flush
status. -/
def writeMsg (msg : List Nat) (payloadFlushed : Bool) : Bool × List W8Ev :=
  if !payloadFlushed then
    (false, [.wbuf msg, .drainWait, .cbSched false])
  else
    (true, [.wbuf msg, .cbSched false])

/-- Embedding of `write(msg, callback)`: oversized messages emit an `'error'` event,
schedule the callback with the error, and return `true`; otherwise the
header is written (waiting for drain when not flushed) followed by
`_writeMsg` for the payload. -/
def write (msg : List Nat) (headerFlushed payloadFlushed : Bool) : WriteResult :=
  if msg.length > MAX_TRAILER_LENGTH then
    { returned := true, errorEmitted := true, trace := [.cbSched true] }
  else
    let buf := packHeaderBytes .message msg.length
    let w := writeMsg msg payloadFlushed
    if !headerFlushed then
      { returned := false, errorEmitted := false,
        trace := [.wbuf buf, .drainWait] ++ w.2 }
    else
      { returned := w.1, errorEmitted := false, trace := .wbuf buf :: w.2 }

/-- The socket writes of a `write()` trace, in order. -/
def writeBufs (tr : List W8Ev) : List (List Nat) :=
  tr.filterMap fun e =>
    match e with
    | .wbuf b => some b
    | _ => none

/-- The one-shot accept/reject handle pair of the request object built in
`_handleRequest`: each flag records whether the corresponding property is
still a function (`true`) or has been nulled (`false`). -/
structure RequestObj where
  acceptSet : Bool
  rejectSet : Bool
deriving DecidableEq, Repr

/-- Effects of invoking the request object's actions. -/
inductive ReqEv where
  | establishedEv
  | positiveResponseSent
  | negativeResponseSent (reason : Option String)
deriving DecidableEq, Repr

/-- Embedding of `request.accept()`: when the handle is still set, run `_established()`
and `_sendPositiveResponse()` and null both handles; invoking a nulled
handle is impossible (`none`). -/
def invokeAccept (r : RequestObj) : Option (RequestObj × List ReqEv) :=
  if r.acceptSet then
    some ({ acceptSet := false, rejectSet := false },
          [.establishedEv, .positiveResponseSent])
  else none

/-- Embedding of `request.reject(s)`: when the handle is still set, run
`_sendNegativeResponse(s)` and null both handles. -/
def invokeReject (r : RequestObj) (reason : Option String) :
    Option (RequestObj × List ReqEv) :=
  if r.rejectSet then
    some ({ acceptSet := false, rejectSet := false },
          [.negativeResponseSent reason])
  else none

/-- The request object as constructed in `_handleRequest`: both handles
set. -/
def initialRequest : RequestObj := { acceptSet := true, rejectSet := true }

theorem EXTENSION_LENGTH_eq : EXTENSION_LENGTH = 65536 := by decide

theorem MAX_TRAILER_LENGTH_eq : MAX_TRAILER_LENGTH = 131071 := by decide

theorem typeCode_roundtrip (ty : FType) :
    TYPE_TO_STRING (TYPE_FROM_STRING ty) = some ty := by
  cases ty <;> rfl

/-- The four header bytes produced by `_packHeader` decode back to the
original type code and trailer length. -/
theorem packHeader_shape (ty : FType) (len : Nat) (h : len ≤ MAX_TRAILER_LENGTH) :
    ∃ fl hi lo, packHeaderBytes ty len = [TYPE_FROM_STRING ty, fl, hi, lo] ∧
      decodeLength fl hi lo = len := by
  have hM : MAX_TRAILER_LENGTH = 131071 := by decide
  rw [hM] at h
  rcases Nat.lt_or_ge len EXTENSION_LENGTH with hlt | hge
  · refine ⟨0, len / 256 % 256, len % 256, ?_, ?_⟩
    · simp [packHeaderBytes, Nat.not_le.mpr hlt]
    · have h0 : (0 : Nat) &&& FLAGS_E_MASK = 0 := by decide
      have hlt' : len < 65536 := by
        have : EXTENSION_LENGTH = 65536 := by decide
        omega
      simp [decodeLength, h0]
      omega
  · refine ⟨FLAGS_E_MASK, (len - EXTENSION_LENGTH) / 256 % 256,
      (len - EXTENSION_LENGTH) % 256, ?_, ?_⟩
    · simp [packHeaderBytes, hge]
    · have hE : EXTENSION_LENGTH = 65536 := by decide
      have hge' : 65536 ≤ len := by omega
      simp only [decodeLength]
      rw [if_pos (by decide : FLAGS_E_MASK &&& FLAGS_E_MASK ≠ 0)]
      rw [hE]
      omega

/-- C1: Header codec round-trip — for every known frame type and every
length in `[0, 131071]`, the 4-byte header written by `_packHeader` decodes
via the header-decoding logic of `_readHeader` (`TYPE_TO_STRING` on byte 0,
`decodeLength` on bytes 1–3) back to exactly the original type and length. -/
theorem c1_header_roundtrip (ty : FType) (len : Nat) (h : len ≤ MAX_TRAILER_LENGTH) :
    ∃ t fl hi lo, packHeaderBytes ty len = [t, fl, hi, lo] ∧
      TYPE_TO_STRING t = some ty ∧ decodeLength fl hi lo = len := by
  obtain ⟨fl, hi, lo, hpack, hdec⟩ := packHeader_shape ty len h
  exact ⟨TYPE_FROM_STRING ty, fl, hi, lo, hpack, typeCode_roundtrip ty, hdec⟩

/-- Witness for C1 at a concrete type and length. -/
theorem c1_header_roundtrip_witness :
    131070 ≤ MAX_TRAILER_LENGTH ∧
    ∃ t fl hi lo, packHeaderBytes .keepAlive 131070 = [t, fl, hi, lo] ∧
      TYPE_TO_STRING t = some .keepAlive ∧ decodeLength fl hi lo = 131070 :=
  ⟨by decide, c1_header_roundtrip .keepAlive 131070 (by decide)⟩

/-- C3: Unexpected-frame draining preserves alignment — in any session mode,
a frame whose type byte is unknown or illegal for that mode (`headerKind`
yields `'ignore'`) is fully consumed: exactly the decoded trailer length is
taken from the input, no event is dispatched, the state returns to the
header-reading phase, and mode and all other fields are untouched, so the
next frame is parsed at the correct byte offset. -/
theorem c3_ignored_frame_drained (m : Mode) (t fl hi lo : Nat) (rest : List Nat)
    (s : Sess) (hm : s.mode = some m) (hph : s.phase = .header)
    (hin : s.input = t :: fl :: hi :: lo :: rest)
    (hign : headerKind m t = .ignore)
    (hlen : decodeLength fl hi lo ≤ rest.length) :
    readFunc s = ({ s with input := rest.drop (decodeLength fl hi lo),
                           trailerType := none, trailerLength := 0,
                           phase := .header }, true) := by
  simp only [readFunc, hph]
  simp only [readHeader, hin, hm, hign]
  by_cases hL : 0 < decodeLength fl hi lo
  · rw [if_pos hL]
    simp only [readTrailer]
    rw [if_neg (Nat.not_lt.mpr hlen)]
  · have h0 : decodeLength fl hi lo = 0 := by omega
    simp only [h0]
    simp only [Nat.lt_irrefl, if_false]
    refine Prod.ext ?_ rfl
    ext <;> simp [hph]

/-- C7 counterexample: a negative-response frame with a zero-length trailer
(`[0x83, 0, 0, 0]`) is completed at the header stage of `_readHeader`, where
only positive responses are handled — `_handleNegativeResponse` never runs,
so no error is reported and the transport stays open, refuting C7 as
stated. -/
theorem c7_counterexample : ¬ c7Stated := by
  intro h
  have h2 := h 0 0 0 [] []
    { mode := some .establishingOut, paused := false, connectCallback := true,
      socket := true, trailerType := none, trailerLength := 0,
      phase := .header, input := [0x83, 0, 0, 0], events := [],
      crashed := false }
    rfl rfl rfl rfl (by decide) (by decide) rfl
  exact absurd h2.1 (by decide)

/-- C7 amended: for every negative-response frame received in
`establishingOut` whose trailer length is at least 2, the session closes the
transport (mode cleared, socket ended) and clears the connect callback;
when a connect callback was supplied it is invoked with the generic
malformed-response error.  (Zero-length negative responses are instead
silently discarded at the header stage — see the counterexample.) -/
theorem c7_malformed_negative_response (fl hi lo : Nat) (body rest : List Nat)
    (s : Sess) (hm : s.mode = some .establishingOut) (hph : s.phase = .header)
    (hsock : s.socket = true)
    (hblen : body.length = decodeLength fl hi lo)
    (h2 : 2 ≤ decodeLength fl hi lo)
    (hin : s.input = 0x83 :: fl :: hi :: lo :: (body ++ rest)) :
    readFunc s =
      ({ s with input := rest, phase := .header, trailerType := none,
                trailerLength := 0, mode := none, paused := false,
                socket := false, connectCallback := false,
                events := s.events ++
                  (if s.connectCallback then [Ev.connectCbMalformed] else []) ++
                  [Ev.socketEnd] }, true) := by
  simp only [readFunc, hph]
  simp only [readHeader, hin, hm]
  have hk : headerKind Mode.establishingOut 0x83 = TKind.typ .negativeResponse := by
    decide
  simp only [hk]
  rw [if_pos (by omega : 0 < decodeLength fl hi lo)]
  simp only [readTrailer]
  have hle : ¬ ((body ++ rest).length < decodeLength fl hi lo) := by
    rw [List.length_append]
    omega
  rw [if_neg hle]
  rw [List.take_left' hblen, List.drop_left' hblen]
  simp only [handleNegativeResponse, hm]
  rw [if_neg (by simp : ¬ (some Mode.establishingOut ≠ some Mode.establishingOut))]
  have hb1 : body.length ≠ 1 := by omega
  cases hcb : s.connectCallback <;> simp [hb1, endSession, hsock]

/-- Witness for C7's amended theorem: a 2-byte negative-response trailer with
a connect callback present. -/
theorem c7_malformed_negative_response_witness :
    ∃ s : Sess, s.mode = some .establishingOut ∧ s.phase = .header ∧
      s.socket = true ∧ [0x82, 0x00].length = decodeLength 0 0 2 ∧
      2 ≤ decodeLength 0 0 2 ∧
      s.input = 0x83 :: 0 :: 0 :: 2 :: ([0x82, 0x00] ++ []) ∧
      readFunc s =
        ({ s with input := [], phase := .header, trailerType := none,
                  trailerLength := 0, mode := none, paused := false,
                  socket := false, connectCallback := false,
                  events := s.events ++
                    (if s.connectCallback then [Ev.connectCbMalformed] else []) ++
                    [Ev.socketEnd] }, true) := by
  refine ⟨{ mode := some .establishingOut, paused := false, connectCallback := true,
            socket := true, trailerType := none, trailerLength := 0,
            phase := .header, input := [0x83, 0, 0, 2, 0x82, 0x00], events := [],
            crashed := false }, rfl, rfl, rfl, by decide, by decide, by decide, ?_⟩
  exact c7_malformed_negative_response 0 0 2 [0x82, 0x00] [] _ rfl rfl rfl
    (by decide) (by decide) (by decide)

/-- C5 (code bug): the no-callback branch of `_handleRequest` consults
`ss.acceptDefault`, a property no code ever assigns, instead of the
constructor's `autoAccept` option, and with inverted sense: the decision is
therefore `accept` for every constructor option set, contradicting both the
claim and the source's own comment ("Normally this is reject by default,
but this can be overriden by passing {autoAccept: true}"). -/
theorem c5_default_policy_code_bug :
    (∀ opts : SessionOpts, noCallbackDecision (mkSessionState opts) = .accept) ∧
    noCallbackDecision (mkSessionState { autoAccept := false }) = .accept ∧
    ¬ (∀ opts : SessionOpts,
        (noCallbackDecision (mkSessionState opts) = .accept ↔ opts.autoAccept = true)) := by
  refine ⟨fun opts => rfl, rfl, fun h => ?_⟩
  have h2 := (h { autoAccept := false }).mp rfl
  exact absurd h2 (by decide)

/-- C6: `reject` semantics of `_sendNegativeResponse` — the emitted frame is
always the fixed negative-response header with trailer-length field 1
followed by exactly one error-code byte; the code is the table code of the
reason when the reason is enumerated and `0x8f` when the reason is absent or
unrecognized; and `end()` runs immediately iff the socket write was flushed
(otherwise only on the drain signal). -/
theorem c6_reject_semantics :
    (∀ flushed, sendNegativeResponse none flushed =
        ([0x83, 0x00, 0x00, 0x01, 0x8f], flushed)) ∧
    (∀ r flushed, ERROR_CODE_FROM_STRING r = none →
        sendNegativeResponse (some r) flushed =
          ([0x83, 0x00, 0x00, 0x01, 0x8f], flushed)) ∧
    (∀ r c flushed, ERROR_CODE_FROM_STRING r = some c →
        sendNegativeResponse (some r) flushed =
          ([0x83, 0x00, 0x00, 0x01, c], flushed)) ∧
    (∀ reason flushed, ∃ code,
        (sendNegativeResponse reason flushed).1 =
          packHeaderBytes .negativeResponse 1 ++ [code] ∧
        ((sendNegativeResponse reason flushed).1).length = HEADER_LENGTH + 1) ∧
    (∀ reason flushed, (sendNegativeResponse reason flushed).2 = flushed) := by
  have hp : packHeaderBytes FType.negativeResponse 1 = [0x83, 0x00, 0x00, 0x01] := by
    decide
  refine ⟨fun flushed => rfl, ?_, ?_, ?_, fun reason flushed => rfl⟩
  · intro r flushed h
    simp [sendNegativeResponse, h, hp]
  · intro r c flushed h
    simp [sendNegativeResponse, h, hp]
  · intro reason flushed
    refine ⟨(match reason.bind ERROR_CODE_FROM_STRING with
             | some c => c | none => 0x8f), ?_, ?_⟩ <;>
      simp [sendNegativeResponse, hp, HEADER_LENGTH]

/-- Witness for C6 at concrete reasons: an enumerated reason maps to its
table code, an unrecognized reason and an absent reason both map to
`0x8f`. -/
theorem c6_reject_semantics_witness :
    sendNegativeResponse none true = ([0x83, 0x00, 0x00, 0x01, 0x8f], true) ∧
    (ERROR_CODE_FROM_STRING "bogus reason" = none ∧
      sendNegativeResponse (some "bogus reason") true =
        ([0x83, 0x00, 0x00, 0x01, 0x8f], true)) ∧
    (ERROR_CODE_FROM_STRING "Called name not present" = some 0x82 ∧
      sendNegativeResponse (some "Called name not present") false =
        ([0x83, 0x00, 0x00, 0x01, 0x82], false)) :=
  ⟨c6_reject_semantics.1 true,
   ⟨by decide, c6_reject_semantics.2.1 "bogus reason" true (by decide)⟩,
   ⟨by decide, c6_reject_semantics.2.2.1 "Called name not present" 0x82 false
      (by decide)⟩⟩

/-- C8: oversized-write contract of `write()` — a message longer than
`MAX_TRAILER_LENGTH` emits an `'error'` event, schedules the callback with
the error, performs no socket write, and still returns `true`; a message
within the limit emits no error, writes the packed header followed by the
payload (in that order), schedules the callback without error, and returns
`true` exactly when both socket writes were flushed immediately. -/
theorem c8_write_contract :
    (∀ (msg : List Nat) (hF pF : Bool), MAX_TRAILER_LENGTH < msg.length →
       write msg hF pF =
         { returned := true, errorEmitted := true, trace := [.cbSched true] }) ∧
    (∀ (msg : List Nat) (hF pF : Bool), msg.length ≤ MAX_TRAILER_LENGTH →
       (write msg hF pF).errorEmitted = false ∧
       (write msg hF pF).returned = (hF && pF) ∧
       writeBufs (write msg hF pF).trace =
         [packHeaderBytes .message msg.length, msg] ∧
       ((write msg hF pF).trace).getLast? = some (.cbSched false)) := by
  constructor
  · intro msg hF pF h
    simp [write, h]
  · intro msg hF pF h
    have h2 : ¬ msg.length > MAX_TRAILER_LENGTH := Nat.not_lt.mpr h
    cases hF <;> cases pF <;>
      simp [write, writeMsg, writeBufs, h2]

/-- Witness for C8: a 131072-byte message is oversized and reports success
anyway; a 3-byte message writes header then payload. -/
theorem c8_write_contract_witness :
    (MAX_TRAILER_LENGTH < (List.replicate 131072 (0 : Nat)).length ∧
      write (List.replicate 131072 (0 : Nat)) true true =
        { returned := true, errorEmitted := true, trace := [.cbSched true] }) ∧
    ((3 : Nat) ≤ MAX_TRAILER_LENGTH ∧
      writeBufs (write [7, 8, 9] true false).trace =
        [packHeaderBytes .message 3, [7, 8, 9]] ∧
      (write [7, 8, 9] true false).returned = false) := by
  have hlen : (List.replicate 131072 (0 : Nat)).length = 131072 :=
    List.length_replicate 131072 0
  have hgt : MAX_TRAILER_LENGTH < (List.replicate 131072 (0 : Nat)).length := by
    rw [hlen, MAX_TRAILER_LENGTH_eq]
    omega
  refine ⟨⟨hgt, c8_write_contract.1 _ true true hgt⟩, ?_⟩
  have h3 : ([7, 8, 9] : List Nat).length ≤ MAX_TRAILER_LENGTH := by decide
  have h := c8_write_contract.2 [7, 8, 9] true false h3
  exact ⟨by decide, h.2.2.1, h.2.1⟩

/-- C9: one-shot accept/reject — a successful invocation of either action
nulls both handles on the request object, after which neither action can be
invoked again. -/
theorem c9_one_shot :
    (∀ (r r' : RequestObj) (evs : List ReqEv), invokeAccept r = some (r', evs) →
       r'.acceptSet = false ∧ r'.rejectSet = false ∧
       invokeAccept r' = none ∧ ∀ reason, invokeReject r' reason = none) ∧
    (∀ (r r' : RequestObj) (reason : Option String) (evs : List ReqEv),
       invokeReject r reason = some (r', evs) →
       r'.acceptSet = false ∧ r'.rejectSet = false ∧
       invokeAccept r' = none ∧ ∀ reason2, invokeReject r' reason2 = none) ∧
    initialRequest.acceptSet = true ∧ initialRequest.rejectSet = true := by
  refine ⟨?_, ?_, rfl, rfl⟩
  · intro r r' evs h
    unfold invokeAccept at h
    split at h
    · simp only [Option.some.injEq, Prod.mk.injEq] at h
      obtain ⟨h1, _⟩ := h
      subst h1
      exact ⟨rfl, rfl, rfl, fun reason => rfl⟩
    · exact absurd h (by simp)
  · intro r r' reason evs h
    unfold invokeReject at h
    split at h
    · simp only [Option.some.injEq, Prod.mk.injEq] at h
      obtain ⟨h1, _⟩ := h
      subst h1
      exact ⟨rfl, rfl, rfl, fun reason2 => rfl⟩
    · exact absurd h (by simp)

/-- Witness for C9: invoking `accept()` on the freshly built request object
nulls both handles; a second accept or reject is impossible. -/
theorem c9_one_shot_witness :
    ∃ (r' : RequestObj) (evs : List ReqEv),
      invokeAccept initialRequest = some (r', evs) ∧
      r'.acceptSet = false ∧ r'.rejectSet = false ∧
      invokeAccept r' = none ∧ invokeReject r' none = none := by
  refine ⟨_, _, rfl, ?_⟩
  have h := c9_one_shot.1 initialRequest _ _ rfl
  exact ⟨h.1, h.2.1, h.2.2.1, h.2.2.2 none⟩

theorem decodeLength_le (fl hi lo : Nat) (hhi : hi ≤ 255) (hlo : lo ≤ 255) :
    decodeLength fl hi lo ≤ MAX_TRAILER_LENGTH := by
  simp only [decodeLength, EXTENSION_LENGTH_eq, MAX_TRAILER_LENGTH_eq]
  split <;> omega

theorem endSession_trailerLength (s : Sess) :
    (endSession s).trailerLength = s.trailerLength := by
  unfold endSession
  split <;> rfl

theorem handleNegativeResponse_trailerLength (s : Sess) (c : List Nat) :
    (handleNegativeResponse s c).trailerLength = s.trailerLength := by
  unfold handleNegativeResponse
  split
  · rfl
  · dsimp only
    split
    · rw [endSession_trailerLength]
    · rw [endSession_trailerLength]
      split <;> rfl

theorem handlePositiveResponse_trailerLength (s : Sess) :
    (handlePositiveResponse s).trailerLength = s.trailerLength := by
  unfold handlePositiveResponse established
  split
  · rfl
  · dsimp only
    split <;> rfl

theorem readTrailer_trailerLength_le (s : Sess)
    (h : s.trailerLength ≤ MAX_TRAILER_LENGTH) :
    ((readTrailer s).1).trailerLength ≤ MAX_TRAILER_LENGTH := by
  unfold readTrailer
  split
  · exact h
  · split <;> simp [handleNegativeResponse_trailerLength]

/-- C10: implicit bound on trailer reads — for arbitrary header bytes the
decoded trailer length is at most `MAX_TRAILER_LENGTH = 131071`; the
`trailerLength` that `_readTrailer` requests from the input stream never
exceeds that bound as the parser runs; and the bound is strictly below the
input stream's configured high-water mark of
`MAX_TRAILER_LENGTH + HEADER_LENGTH`. -/
theorem c10_trailer_read_bound :
    (∀ fl hi lo : Nat, hi ≤ 255 → lo ≤ 255 →
       decodeLength fl hi lo ≤ MAX_TRAILER_LENGTH) ∧
    (∀ s : Sess, bytesWF s.input → s.trailerLength ≤ MAX_TRAILER_LENGTH →
       ((readFunc s).1).trailerLength ≤ MAX_TRAILER_LENGTH) ∧
    highWaterMark = MAX_TRAILER_LENGTH + HEADER_LENGTH ∧
    MAX_TRAILER_LENGTH < highWaterMark := by
  refine ⟨decodeLength_le, ?_, rfl, by decide⟩
  intro s hwf hle
  unfold readFunc
  cases hph : s.phase
  case trailer => exact readTrailer_trailerLength_le s hle
  case header =>
  rcases hI : s.input with _ | ⟨t, _ | ⟨fl, _ | ⟨hi, _ | ⟨lo, rest⟩⟩⟩⟩ <;>
    simp only [readHeader, hI]
  · exact hle
  · exact hle
  · exact hle
  · exact hle
  · cases hm : s.mode
    · exact hle
    · have hhi : hi ≤ 255 := hwf hi (by rw [hI]; simp)
      have hlo : lo ≤ 255 := hwf lo (by rw [hI]; simp)
      have hL := decodeLength_le fl hi lo hhi hlo
      simp only []
      split
      · exact readTrailer_trailerLength_le _ (by simpa using hL)
      · split <;> simp [handlePositiveResponse_trailerLength]

/-- Witness for C10: a header carrying the maximal length field (extension
bit set, 16-bit field `0xffff`) decodes to exactly `MAX_TRAILER_LENGTH`, and
the parser's pending trailer request stays within the bound. -/
theorem c10_trailer_read_bound_witness :
    ∃ s : Sess, bytesWF s.input ∧ s.trailerLength ≤ MAX_TRAILER_LENGTH ∧
      decodeLength 0x80 0xff 0xff = MAX_TRAILER_LENGTH ∧
      ((readFunc s).1).trailerLength ≤ MAX_TRAILER_LENGTH := by
  refine ⟨{ mode := some .established, paused := false, connectCallback := false,
            socket := true, trailerType := none, trailerLength := 0,
            phase := .header, input := [0x00, 0x80, 0xff, 0xff], events := [],
            crashed := false }, by decide, by decide, by decide, ?_⟩
  exact c10_trailer_read_bound.2.1 _ (by decide) (by decide)

theorem writeChunk_base (chunk : List Nat) (offset : Nat)
    (h : chunk.length - offset ≤ MAX_TRAILER_LENGTH) :
    writeChunk chunk offset = framesTrace [chunk.drop offset] ++ [WEv.cb] ∧
      ([chunk.drop offset] : List (List Nat)).flatten = chunk.drop offset ∧
      ([chunk.drop offset] : List (List Nat)).length =
        max 1 ((chunk.length - offset + MAX_TRAILER_LENGTH - 1) / MAX_TRAILER_LENGTH) ∧
      ∀ t ∈ ([chunk.drop offset] : List (List Nat)),
        t.length ≤ MAX_TRAILER_LENGTH := by
  have hmin : min (chunk.length - offset) MAX_TRAILER_LENGTH =
      chunk.length - offset := by omega
  have hnot : ¬ offset + min (chunk.length - offset) MAX_TRAILER_LENGTH <
      chunk.length := by omega
  have hdl : (chunk.drop offset).length = chunk.length - offset :=
    List.length_drop offset chunk
  have htake : (chunk.drop offset).take (chunk.length - offset) =
      chunk.drop offset := List.take_of_length_le (by rw [hdl])
  refine ⟨?_, by simp, ?_, ?_⟩
  · rw [writeChunk, if_neg hnot, hmin, htake]
    simp [framesTrace, hdl]
  · have hMv : MAX_TRAILER_LENGTH = 131071 := by decide
    rw [hMv] at h ⊢
    simp only [List.length_singleton]
    omega
  · intro t ht
    rw [List.mem_singleton] at ht
    subst ht
    rw [hdl]
    exact h

theorem writeChunk_spec (n : Nat) :
    ∀ (chunk : List Nat) (offset : Nat), chunk.length - offset ≤ n →
    ∃ ds : List (List Nat),
      writeChunk chunk offset = framesTrace ds ++ [WEv.cb] ∧
      ds.flatten = chunk.drop offset ∧
      ds.length =
        max 1 ((chunk.length - offset + MAX_TRAILER_LENGTH - 1) / MAX_TRAILER_LENGTH) ∧
      ∀ t ∈ ds, t.length ≤ MAX_TRAILER_LENGTH := by
  induction n with
  | zero =>
    intro chunk offset h
    have hb := writeChunk_base chunk offset (by omega)
    exact ⟨[chunk.drop offset], hb.1, hb.2.1, hb.2.2.1, hb.2.2.2⟩
  | succ n ih =>
    intro chunk offset h
    have hMv : MAX_TRAILER_LENGTH = 131071 := by decide
    by_cases hrec : offset + min (chunk.length - offset) MAX_TRAILER_LENGTH <
        chunk.length
    · have hmin : min (chunk.length - offset) MAX_TRAILER_LENGTH =
          MAX_TRAILER_LENGTH := by omega
      have hrem : MAX_TRAILER_LENGTH < chunk.length - offset := by omega
      obtain ⟨ds, h1, h2, h3, h4⟩ := ih chunk (offset + MAX_TRAILER_LENGTH)
        (by omega)
      have hd : ((chunk.drop offset).take MAX_TRAILER_LENGTH).length =
          MAX_TRAILER_LENGTH := by
        rw [List.length_take, List.length_drop]
        omega
      refine ⟨(chunk.drop offset).take MAX_TRAILER_LENGTH :: ds, ?_, ?_, ?_, ?_⟩
      · rw [writeChunk, hmin, if_pos (by omega), h1]
        simp [framesTrace, hd]
      · have hdd : chunk.drop (offset + MAX_TRAILER_LENGTH) =
            (chunk.drop offset).drop MAX_TRAILER_LENGTH := by
          rw [List.drop_drop, Nat.add_comm]
        simp only [List.flatten_cons, h2, hdd]
        exact List.take_append_drop _ _
      · rw [hMv] at hrem h3 ⊢
        simp only [List.length_cons, h3]
        omega
      · intro t ht
        rcases List.mem_cons.mp ht with h5 | h5
        · subst h5
          rw [hd]
        · exact h4 t h5
    · have hb := writeChunk_base chunk offset (by omega)
      exact ⟨[chunk.drop offset], hb.1, hb.2.1, hb.2.2.1, hb.2.2.2⟩

theorem cb_not_mem_framesTrace (ts : List (List Nat)) :
    WEv.cb ∉ framesTrace ts := by
  induction ts with
  | nil => simp [framesTrace]
  | cons t ts ih =>
    simp only [framesTrace, List.map_cons, List.flatten_cons] at *
    simp only [List.mem_append, List.mem_cons]
    rintro ((h | h | h) | h) <;> simp_all

/-- C2: write chunking — for every payload longer than
`MAX_TRAILER_LENGTH`, `_writeChunk` emits frames whose trace is exactly an
alternating header/trailer sequence (each header the packed `message` header
for its trailer's length) followed by the single completion callback; the
trailers concatenate byte-for-byte to the payload in order, their lengths
sum to the payload length, each is at most `MAX_TRAILER_LENGTH`, there are
exactly `ceil(N / MAX_TRAILER_LENGTH)` of them, and the callback event is
last and occurs nowhere earlier in the trace. -/
theorem c2_write_chunking (chunk : List Nat)
    (h : MAX_TRAILER_LENGTH < chunk.length) :
    ∃ ds : List (List Nat),
      writeChunk chunk 0 = framesTrace ds ++ [WEv.cb] ∧
      ds.flatten = chunk ∧
      (ds.map List.length).sum = chunk.length ∧
      ds.length = (chunk.length + MAX_TRAILER_LENGTH - 1) / MAX_TRAILER_LENGTH ∧
      (∀ t ∈ ds, t.length ≤ MAX_TRAILER_LENGTH) ∧
      WEv.cb ∉ framesTrace ds := by
  obtain ⟨ds, h1, h2, h3, h4⟩ :=
    writeChunk_spec chunk.length chunk 0 (by omega)
  rw [List.drop_zero] at h2
  refine ⟨ds, h1, h2, ?_, ?_, h4, cb_not_mem_framesTrace ds⟩
  · rw [← List.length_flatten, h2]
  · rw [h3]
    have hMv : MAX_TRAILER_LENGTH = 131071 := by decide
    rw [hMv] at h ⊢
    omega

/-- Witness for C2: a 131073-byte payload is split into two frames. -/
theorem c2_write_chunking_witness :
    MAX_TRAILER_LENGTH < (List.replicate 131073 (5 : Nat)).length ∧
    ∃ ds : List (List Nat),
      writeChunk (List.replicate 131073 (5 : Nat)) 0 =
        framesTrace ds ++ [WEv.cb] ∧
      ds.flatten = List.replicate 131073 (5 : Nat) ∧
      (ds.map List.length).sum = (List.replicate 131073 (5 : Nat)).length ∧
      ds.length = ((List.replicate 131073 (5 : Nat)).length +
        MAX_TRAILER_LENGTH - 1) / MAX_TRAILER_LENGTH ∧
      (∀ t ∈ ds, t.length ≤ MAX_TRAILER_LENGTH) ∧
      WEv.cb ∉ framesTrace ds := by
  have hlen : MAX_TRAILER_LENGTH < (List.replicate 131073 (5 : Nat)).length := by
    rw [List.length_replicate, MAX_TRAILER_LENGTH_eq]
    omega
  exact ⟨hlen, c2_write_chunking _ hlen⟩

/-- Witness for C3: a retarget-response frame (type byte `0x84`) with a
2-byte trailer arriving in the established state is drained in place. -/
theorem c3_ignored_frame_drained_witness :
    ∃ s : Sess, s.mode = some .established ∧ s.phase = .header ∧
      s.input = 0x84 :: 0 :: 0 :: 2 :: [9, 9, 7] ∧
      headerKind .established 0x84 = .ignore ∧
      decodeLength 0 0 2 ≤ [9, 9, 7].length ∧
      readFunc s = ({ s with input := [9, 9, 7].drop (decodeLength 0 0 2),
                             trailerType := none, trailerLength := 0,
                             phase := .header }, true) := by
  refine ⟨{ mode := some .established, paused := false, connectCallback := false,
            socket := true, trailerType := none, trailerLength := 0,
            phase := .header, input := [0x84, 0, 0, 2, 9, 9, 7], events := [],
            crashed := false }, rfl, rfl, rfl, by decide, by decide, ?_⟩
  exact c3_ignored_frame_drained .established 0x84 0 0 2 [9, 9, 7] _ rfl rfl rfl
    (by decide) (by decide)

theorem hnr_noop (s : Sess) (c : List Nat)
    (h : s.mode ≠ some .establishingOut) : handleNegativeResponse s c = s := by
  unfold handleNegativeResponse
  rw [if_pos h]

theorem hpr_noop (s : Sess) (h : s.mode ≠ some .establishingOut) :
    handlePositiveResponse s = s := by
  unfold handlePositiveResponse
  rw [if_pos h]

theorem readTrailer_established_inv (s : Sess) (hm : s.mode = some .established) :
    ((readTrailer s).1).mode = some .established ∧
      ((readTrailer s).1).paused = s.paused := by
  unfold readTrailer
  split
  · exact ⟨hm, rfl⟩
  · dsimp only
    split
    all_goals first
      | exact ⟨hm, rfl⟩
      | (rw [hnr_noop _ _ (by simp [hm])]; exact ⟨hm, rfl⟩)

theorem readFunc_established_inv (s : Sess) (hm : s.mode = some .established) :
    ((readFunc s).1).mode = some .established ∧
      ((readFunc s).1).paused = s.paused := by
  unfold readFunc
  cases hph : s.phase
  case trailer => exact readTrailer_established_inv s hm
  case header =>
  rcases hI : s.input with _ | ⟨t, _ | ⟨fl, _ | ⟨hi, _ | ⟨lo, rest⟩⟩⟩⟩ <;>
    simp only [readHeader, hI]
  · simp [hm]
  · simp [hm]
  · simp [hm]
  · simp [hm]
  · rw [hm]
    simp only []
    split
    · exact readTrailer_established_inv _ rfl
    · split
      · rw [hpr_noop _ (by simp)]
        exact ⟨rfl, rfl⟩
      · exact ⟨rfl, rfl⟩

theorem msgCount_endSession (s : Sess) : msgCount (endSession s) = msgCount s := by
  unfold endSession
  split <;> simp [msgCount, msgEvents, List.filterMap_append]

theorem msgCount_hnr (s : Sess) (c : List Nat) :
    msgCount (handleNegativeResponse s c) = msgCount s := by
  unfold handleNegativeResponse
  split
  · rfl
  · dsimp only
    split
    · rw [msgCount_endSession]
      simp [msgCount, msgEvents, List.filterMap_append]
    · rw [msgCount_endSession]
      split <;> simp [msgCount, msgEvents, List.filterMap_append]

theorem msgCount_hpr (s : Sess) :
    msgCount (handlePositiveResponse s) = msgCount s := by
  unfold handlePositiveResponse established
  split
  · rfl
  · dsimp only
    split <;> simp [msgCount, msgEvents, List.filterMap_append]

theorem msgCount_readTrailer_le (s : Sess) :
    msgCount (readTrailer s).1 ≤ msgCount s + 1 := by
  unfold readTrailer
  split
  · exact Nat.le_succ _
  · dsimp only
    split
    all_goals dsimp only
    all_goals first
      | (rw [msgCount_hnr]; exact Nat.le_succ _)
      | simp [msgCount, msgEvents, List.filterMap_append]

theorem msgCount_readFunc_le (s : Sess) :
    msgCount (readFunc s).1 ≤ msgCount s + 1 := by
  unfold readFunc
  cases hph : s.phase
  case trailer => exact msgCount_readTrailer_le s
  case header =>
  rcases hI : s.input with _ | ⟨t, _ | ⟨fl, _ | ⟨hi, _ | ⟨lo, rest⟩⟩⟩⟩ <;>
    simp only [readHeader, hI]
  · exact Nat.le_succ _
  · exact Nat.le_succ _
  · exact Nat.le_succ _
  · exact Nat.le_succ _
  · cases hm : s.mode
    · exact Nat.le_succ _
    · simp only []
      split
      · exact msgCount_readTrailer_le _
      · split
        · rw [msgCount_hpr]
          exact Nat.le_succ _
        · exact Nat.le_succ _

theorem runTicks_halted (fuel : Nat) (s : Sess) :
    runTicks fuel (s, .halted) = (s, .halted) := by
  cases fuel <;> rfl

theorem tick_fst (s : Sess) : (tick s).1 = (readFunc s).1 := by
  unfold tick
  dsimp only
  split
  · rfl
  · split <;> rfl

theorem tick_paused_halts (s : Sess) (hm : s.mode = some .established)
    (hp : s.paused = true) : (tick s).2 = .halted := by
  unfold tick
  have h := readFunc_established_inv s hm
  dsimp only
  rw [if_pos ⟨h.1, by rw [h.2, hp]⟩]

theorem tick_msg_frame (s : Sess) (t rest : List Nat)
    (hm : s.mode = some .established) (hp : s.paused = false)
    (hph : s.phase = .header) (h0 : 0 < t.length)
    (hMAX : t.length ≤ MAX_TRAILER_LENGTH)
    (hin : s.input = packHeaderBytes .message t.length ++ (t ++ rest)) :
    tick s = ({ s with input := rest, trailerType := none, trailerLength := 0,
                       phase := .header,
                       events := s.events ++ [.message t] }, .ticking) := by
  obtain ⟨fl, hi, lo, hpack, hdec⟩ := packHeader_shape .message t.length hMAX
  rw [hpack] at hin
  have hin' : s.input = 0 :: fl :: hi :: lo :: (t ++ rest) := by
    simpa [TYPE_FROM_STRING] using hin
  have hk : headerKind Mode.established 0 = TKind.typ .message := by decide
  have hrf : readFunc s =
      ({ s with input := rest, trailerType := none, trailerLength := 0,
                phase := .header, events := s.events ++ [.message t] }, true) := by
    simp only [readFunc, hph, readHeader, hin', hm, hk, hdec]
    rw [if_pos h0]
    simp only [readTrailer]
    rw [if_neg (by rw [List.length_append]; omega)]
    rw [List.take_left, List.drop_left]
  unfold tick
  rw [hrf]
  dsimp only
  rw [if_neg (by simp [hp])]
  rfl

theorem run_delivers (ts : List (List Nat)) :
    ∀ s : Sess, s.mode = some .established → s.paused = false →
      s.phase = .header → s.trailerType = none → s.trailerLength = 0 →
      s.input = encodeFrames ts →
      (∀ t ∈ ts, 0 < t.length ∧ t.length ≤ MAX_TRAILER_LENGTH) →
      runTicks (ts.length + 1) (s, .ticking) =
        ({ s with input := [],
                  events := s.events ++ ts.map Ev.message }, .waiting) := by
  induction ts with
  | nil =>
    intro s hm hp hph htt htl hin hwf
    have hin' : s.input = [] := by simpa [encodeFrames] using hin
    have hrf : readFunc s = (s, false) := by
      simp only [readFunc, hph, readHeader, hin']
    simp only [List.length_nil, runTicks, tick, hrf]
    rw [if_neg (by simp [hp])]
    simp only [Bool.not_false, if_pos]
    refine Prod.ext ?_ rfl
    ext <;> simp [hin']
  | cons t ts ih =>
    intro s hm hp hph htt htl hin hwf
    have hwt := hwf t (List.mem_cons_self t ts)
    have henc : s.input = packHeaderBytes .message t.length ++
        (t ++ encodeFrames ts) := by
      rw [hin]
      simp [encodeFrames]
    have htick := tick_msg_frame s t (encodeFrames ts) hm hp hph hwt.1 hwt.2 henc
    rw [show (t :: ts).length + 1 = (ts.length + 1) + 1 by simp]
    rw [show runTicks ((ts.length + 1) + 1) (s, .ticking) =
          runTicks (ts.length + 1) (tick s) from rfl]
    rw [htick]
    have hrun := ih
      ({ s with input := encodeFrames ts, trailerType := none,
                trailerLength := 0, phase := .header,
                events := s.events ++ [Ev.message t] })
      hm hp rfl rfl rfl rfl (fun u hu => hwf u (List.mem_cons_of_mem t hu))
    rw [hrun]
    refine Prod.ext ?_ rfl
    ext <;> simp [hph, htt, htl]

theorem tick_request_frame (fl hi lo : Nat) (body rest : List Nat) (s : Sess)
    (hm : s.mode = some .establishingIn) (hph : s.phase = .header)
    (hblen : body.length = decodeLength fl hi lo)
    (h0 : 0 < decodeLength fl hi lo)
    (hin : s.input = 0x81 :: fl :: hi :: lo :: (body ++ rest)) :
    tick s = ({ s with input := rest, trailerType := none, trailerLength := 0,
                       phase := .header,
                       events := s.events ++ [.requestFrame body] }, .ticking) := by
  have hk : headerKind Mode.establishingIn 0x81 = TKind.typ .request := by decide
  have hrf : readFunc s =
      ({ s with input := rest, trailerType := none, trailerLength := 0,
                phase := .header,
                events := s.events ++ [.requestFrame body] }, true) := by
    simp only [readFunc, hph, readHeader, hin, hm, hk]
    rw [if_pos h0]
    simp only [readTrailer]
    rw [if_neg (by rw [List.length_append]; omega)]
    rw [List.take_left' hblen, List.drop_left' hblen]
  unfold tick
  rw [hrf]
  dsimp only
  rw [if_neg (by simp [hm])]
  rfl

/-- C4 counterexample: with the session established and paused, a read tick
that is already scheduled (the loop schedules one after every completed
frame, and `resume`/readability arm new ones) still runs `ss.readFunc()`
before `_doRead` checks the pause flag, so one fully buffered message frame
is dispatched after `pause()` — refuting the claim that no further message
dispatch occurs. -/
theorem c4_counterexample : ¬ c4Stated := by
  intro h
  have h2 := h
    { mode := some .established, paused := true, connectCallback := false,
      socket := true, trailerType := none, trailerLength := 0,
      phase := .header, input := [0x00, 0x00, 0x00, 0x01, 42], events := [],
      crashed := false } .ticking 1 rfl rfl
  exact absurd h2 (by decide)

/-- C4 amended: (i) after `pause()` in the established state the loop halts
right after the single in-flight read step, which dispatches at most one
further message (none when `pause()` ran inside the message handler, i.e.
when that step is the one that set the flag); (ii) `resume()` after
`pause()` restores the unpaused state and schedules a read tick, changing
nothing else; (iii) from an unpaused established idle state, buffered
message frames are delivered in their original order with no loss or
duplication; (iv) in `establishingIn`, a tick drains and dispatches a
buffered call-request frame and keeps the loop running whatever the pause
flag — pausing before establishment does not stop handshake draining. -/
theorem c4_pause_resume_behavior :
    (∀ (fuel : Nat) (s : Sess), s.mode = some .established → s.paused = true →
       runTicks (fuel + 1) (s, .ticking) = ((tick s).1, .halted) ∧
       msgCount (tick s).1 ≤ msgCount s + 1) ∧
    (∀ sc : Sess × LoopCtl,
       resumeAct (pauseAct sc) = ({ sc.1 with paused := false }, .ticking)) ∧
    (∀ (ts : List (List Nat)) (s : Sess), s.mode = some .established →
       s.paused = false → s.phase = .header → s.trailerType = none →
       s.trailerLength = 0 → s.input = encodeFrames ts →
       (∀ t ∈ ts, 0 < t.length ∧ t.length ≤ MAX_TRAILER_LENGTH) →
       runTicks (ts.length + 1) (s, .ticking) =
         ({ s with input := [],
                   events := s.events ++ ts.map Ev.message }, .waiting)) ∧
    (∀ (fl hi lo : Nat) (body rest : List Nat) (s : Sess),
       s.mode = some .establishingIn → s.phase = .header →
       body.length = decodeLength fl hi lo → 0 < decodeLength fl hi lo →
       s.input = 0x81 :: fl :: hi :: lo :: (body ++ rest) →
       tick s = ({ s with input := rest, trailerType := none,
                          trailerLength := 0, phase := .header,
                          events := s.events ++ [.requestFrame body] },
                 .ticking)) := by
  refine ⟨?_, fun sc => rfl, run_delivers, tick_request_frame⟩
  intro fuel s hm hp
  have hhalt := tick_paused_halts s hm hp
  constructor
  · rw [show runTicks (fuel + 1) (s, .ticking) = runTicks fuel (tick s) from rfl]
    rw [show tick s = ((tick s).1, (tick s).2) from rfl, hhalt]
    exact runTicks_halted fuel (tick s).1
  · rw [tick_fst]
    exact msgCount_readFunc_le s

/-- Witness for C4's amended theorem: each conjunct applied at a concrete
session state — a paused established session halts after one tick; pause
then resume restores the state; two buffered 1-byte messages are delivered
in order; a paused `establishingIn` session still drains a request frame. -/
theorem c4_pause_resume_behavior_witness :
    (∃ s : Sess, s.mode = some .established ∧ s.paused = true ∧
       runTicks 3 (s, .ticking) = ((tick s).1, .halted) ∧
       msgCount (tick s).1 ≤ msgCount s + 1) ∧
    (∃ s : Sess, resumeAct (pauseAct (s, .halted)) =
       ({ s with paused := false }, .ticking)) ∧
    (∃ s : Sess, s.input = encodeFrames [[7], [8]] ∧
       runTicks 3 (s, .ticking) =
         ({ s with input := [],
                   events := s.events ++ [Ev.message [7], Ev.message [8]] },
          .waiting)) ∧
    (∃ s : Sess, s.mode = some .establishingIn ∧ s.paused = true ∧
       tick s = ({ s with input := [], trailerType := none, trailerLength := 0,
                          phase := .header,
                          events := s.events ++ [.requestFrame [9, 9]] },
                 .ticking)) := by
  refine ⟨⟨{ mode := some .established, paused := true, connectCallback := false,
             socket := true, trailerType := none, trailerLength := 0,
             phase := .header, input := [], events := [], crashed := false },
           rfl, rfl, ?_⟩, ?_, ?_, ?_⟩
  · exact c4_pause_resume_behavior.1 2 _ rfl rfl
  · exact ⟨{ mode := some .established, paused := false, connectCallback := false,
             socket := true, trailerType := none, trailerLength := 0,
             phase := .header, input := [], events := [], crashed := false },
           c4_pause_resume_behavior.2.1 _⟩
  · have h := c4_pause_resume_behavior.2.2.1 [[7], [8]]
      { mode := some .established, paused := false, connectCallback := false,
        socket := true, trailerType := none, trailerLength := 0,
        phase := .header,
        input := [0x00, 0x00, 0x00, 0x01, 7, 0x00, 0x00, 0x00, 0x01, 8],
        events := [], crashed := false }
      rfl rfl rfl rfl rfl (by decide) (by decide)
    exact ⟨{ mode := some .established, paused := false, connectCallback := false,
             socket := true, trailerType := none, trailerLength := 0,
             phase := .header,
             input := [0x00, 0x00, 0x00, 0x01, 7, 0x00, 0x00, 0x00, 0x01, 8],
             events := [], crashed := false }, by decide, by simpa using h⟩
  · have h := c4_pause_resume_behavior.2.2.2 0 0 2 [9, 9] []
      { mode := some .establishingIn, paused := true, connectCallback := false,
        socket := true, trailerType := none, trailerLength := 0,
        phase := .header, input := [0x81, 0x00, 0x00, 0x02, 9, 9],
        events := [], crashed := false }
      rfl rfl (by decide) (by decide) (by decide)
    exact ⟨_, rfl, rfl, by simpa using h⟩

end Netbios
